import Mathlib

/-!
Verification of the transcript-search core of `bsullins/ytscanner` (`src/app.py`).

Shallow embedding conventions:
* Python strings are Lean `String`s; `str.lower` / `str.split` / substring
  containment (`in`) are embedded for the ASCII fragment the program works in.
* Fallible Python code is embedded in `Except Unit`: `Except.error ()` marks a
  raised exception (`IndexError`, `json` failures, ...).
* The cached transcript corpus read from `transcripts_cache/*.json` is embedded
  as a list of `(video_id, parse outcome)` pairs: `Except.error ()` stands for a
  file whose `json.load` (or whose overall shape) raises inside the per-file
  `try`, `Except.ok data` for a successfully parsed list of segment dicts.
  Non-`.json` files are never part of the corpus (the code skips them).
* JSON numbers (`start` timestamps, seconds) are embedded as exact rationals.
-/

namespace YTScanner

/-- Equality on `Except` outcomes is decidable (used to evaluate the embedding
on concrete inputs). -/
instance exceptDecEq {ε α : Type} [DecidableEq ε] [DecidableEq α] :
    DecidableEq (Except ε α) := fun x y =>
  match x, y with
  | Except.ok a, Except.ok b =>
    match decEq a b with
    | isTrue h => isTrue (h ▸ rfl)
    | isFalse h => isFalse fun hh => h (Except.ok.inj hh)
  | Except.ok _, Except.error _ => isFalse fun hh => Except.noConfusion hh
  | Except.error _, Except.ok _ => isFalse fun hh => Except.noConfusion hh
  | Except.error e, Except.error f =>
    match decEq e f with
    | isTrue h => isTrue (h ▸ rfl)
    | isFalse h => isFalse fun hh => h (Except.error.inj hh)

/-! ## Python string primitives -/

/-- Python `str.lower` on one character (ASCII range, which is all the program needs). -/
def pyLowerChar (c : Char) : Char :=
  if 65 ≤ c.toNat ∧ c.toNat ≤ 90 then Char.ofNat (c.toNat + 32) else c

/-- Python `s.lower()`. -/
def pyLower (s : String) : String := ⟨s.data.map pyLowerChar⟩

/-- Python `str.isspace` for the ASCII whitespace class used by `str.split()`. -/
def pyIsSpace (c : Char) : Bool :=
  c = ' ' || c = '\t' || c = '\n' || c = '\r' || c = Char.ofNat 11 || c = Char.ofNat 12

/-- Worker for `pySplit`: `acc` holds the current (reversed) in-progress token. -/
def pySplitAux : List Char → List Char → List String
  | [], acc => if acc.isEmpty then [] else [⟨acc.reverse⟩]
  | c :: cs, acc =>
    if pyIsSpace c then
      if acc.isEmpty then pySplitAux cs [] else ⟨acc.reverse⟩ :: pySplitAux cs []
    else pySplitAux cs (c :: acc)

/-- Python `s.split()` (no argument): split on whitespace runs, no empty tokens. -/
def pySplit (s : String) : List String := pySplitAux s.data []

/-- Does `needle` start `hay` (character-wise)? -/
def strStarts : List Char → List Char → Bool
  | [], _ => true
  | _ :: _, [] => false
  | a :: as, b :: bs => a == b && strStarts as bs

/-- Does `needle` occur contiguously inside `hay`? -/
def strSub (needle : List Char) : List Char → Bool
  | [] => needle.isEmpty
  | b :: bs => strStarts needle (b :: bs) || strSub needle bs

/-- Python `needle in hay` on strings. -/
def strContains (needle hay : String) : Bool := strSub needle.data hay.data

/-- Python string `<`: lexicographic comparison by code point. -/
def listLt : List Char → List Char → Bool
  | [], [] => false
  | [], _ :: _ => true
  | _ :: _, [] => false
  | a :: as, b :: bs =>
    if a.toNat < b.toNat then true
    else if b.toNat < a.toNat then false
    else listLt as bs

/-- Python `s < t` on strings. -/
def pyStrLt (s t : String) : Bool := listLt s.data t.data

/-! ## Phrase matcher — `search_phrase_in_text` (src/app.py:61-105) -/

/-- The loop `for i, text_word in enumerate(text_words): if phrase_word in
text_word: positions.append(i)`, started at index `i`. -/
def positionsOf (w : String) : List String → Nat → List Nat
  | [], _ => []
  | t :: ts, i =>
    if strContains w t then i :: positionsOf w ts (i + 1) else positionsOf w ts (i + 1)

/-- The inner `for pos in word_positions[phrase_word]` loop: first position
strictly after `last` and at most `g + 1` away, if any. -/
def findNext (g last : Nat) : List Nat → Option Nat
  | [] => none
  | p :: ps => if last < p ∧ p - last ≤ g + 1 then some p else findNext g last ps

/-- The `for phrase_word in phrase_words[1:]` loop: extend a match chain from
anchor position `last` through the remaining phrase words. -/
def chainFrom (tws : List String) (g : Nat) : List String → Nat → Bool
  | [], _ => true
  | w :: ws, last =>
    match findNext g last (positionsOf w tws 0) with
    | some p => chainFrom tws g ws p
    | none => false

/-- The matcher `search_phrase_in_text(phrase, text, max_word_distance=5)`.
`Except.error ()` is the `IndexError` raised by `phrase_words[0]` when the
phrase is non-empty but whitespace-only (its `split()` is `[]`).  The
fail-fast `if not positions: return False` inside the position-building loop
is embedded as the `any isEmpty` test, which yields the same result. -/
def search_phrase_in_text (phrase text : String) (max_word_distance : Nat) :
    Except Unit Bool :=
  if phrase = "" ∨ text = "" then Except.ok false
  else if (pySplit (pyLower phrase)).length = 1 then
    Except.ok (strContains ((pySplit (pyLower phrase)).headD "") (pyLower text))
  else if (pySplit (pyLower phrase)).any
      (fun w => (positionsOf w (pySplit (pyLower text)) 0).isEmpty) then
    Except.ok false
  else
    match pySplit (pyLower phrase) with
    | [] => Except.error ()
    | w :: ws =>
      Except.ok ((positionsOf w (pySplit (pyLower text)) 0).any
        fun s => chainFrom (pySplit (pyLower text)) max_word_distance ws s)

/-! ## Transcript search engine — `search_cached_transcripts` (src/app.py:107-165) -/

/-- One segment dict of a cached transcript; `none` is a missing key
(`dict.get` supplies the defaults at each use site). -/
structure Entry where
  text : Option String
  title : Option String
  channel_name : Option String
  start : Option ℚ
  published_at : Option String
deriving DecidableEq

/-- One element of a `video_matches` list. -/
structure MatchHit where
  video_id : String
  title : String
  channel_name : String
  timestamp : ℚ
  text : String
  published_at : String
deriving DecidableEq

/-- One element of the `results` list; `video_matches` is its `'matches'`
entry (`matches` itself is a reserved word in Lean). -/
structure VideoResult where
  video_id : String
  title : String
  channel_name : String
  published_at : String
  video_matches : List MatchHit
deriving DecidableEq

/-- The cached corpus: `(video_id, parse outcome)` per `.json` file, in
directory-listing order. -/
abbrev Corpus := List (String × Except Unit (List Entry))

/-- The dict appended to `video_matches` for a matching segment. -/
def mkHit (vid : String) (e : Entry) : MatchHit :=
  { video_id := vid
    title := e.title.getD ("Video " ++ vid)
    channel_name := e.channel_name.getD "Unknown Channel"
    timestamp := e.start.getD 0
    text := e.text.getD ""
    published_at := e.published_at.getD "Unknown date" }

/-- The `for entry in data` loop: collect matching segments in order; an
exception from the matcher aborts the whole record. -/
def collectMatches (term vid : String) : List Entry → Except Unit (List MatchHit)
  | [] => Except.ok []
  | e :: es =>
    match search_phrase_in_text term (e.text.getD "") 5 with
    | Except.error _ => Except.error ()
    | Except.ok b =>
      match collectMatches term vid es with
      | Except.error _ => Except.error ()
      | Except.ok rest => Except.ok (if b then mkHit vid e :: rest else rest)

/-- The test `if channel_name and data[0].get('channel_name') != channel_name`. -/
def chanSkip (chan : Option String) (data : List Entry) : Bool :=
  match chan, data with
  | none, _ => false
  | some _, [] => false
  | some c, e :: _ => c != "" && e.channel_name != some c

/-- The body of the per-file loop: everything inside the `try` block.
`Except.error ()` means the record is skipped by `except: continue`. -/
def processRecord (term : String) (chan : Option String) (vid : String)
    (rec : Except Unit (List Entry)) : Except Unit (Option VideoResult) :=
  match rec with
  | Except.error _ => Except.error ()
  | Except.ok data =>
    if data.length ≤ 2 then Except.ok none
    else if chanSkip chan data then Except.ok none
    else
      match collectMatches term vid data with
      | Except.error _ => Except.error ()
      | Except.ok ms =>
        match ms with
        | [] => Except.ok none
        | m :: _ =>
          Except.ok (some { video_id := vid, title := m.title,
                            channel_name := m.channel_name,
                            published_at := m.published_at, video_matches := ms })

/-- The `results` list before the final sort. -/
def searchResults (term : String) (chan : Option String) (corpus : Corpus) :
    List VideoResult :=
  corpus.filterMap fun pr =>
    match processRecord term chan pr.1 pr.2 with
    | Except.error _ => none
    | Except.ok r => r

/-- The local `sort_key`: `'0000-00-00' if item['published_at'] == 'Unknown date' else
item['published_at']`. -/
def sortKey (r : VideoResult) : String :=
  if r.published_at = "Unknown date" then "0000-00-00" else r.published_at

/-- Stable descending insertion: `x` (earlier in encounter order than all of
the already-sorted list) is placed before the first element whose key is not
greater than `sortKey x`. -/
def pyInsert (x : VideoResult) : List VideoResult → List VideoResult
  | [] => [x]
  | y :: ys => if pyStrLt (sortKey x) (sortKey y) then y :: pyInsert x ys else x :: y :: ys

/-- The call `results.sort(key=sort_key, reverse=True)`: Python's sort is stable and
`reverse=True` keeps equal-key elements in encounter order. -/
def pySortDesc : List VideoResult → List VideoResult
  | [] => []
  | x :: xs => pyInsert x (pySortDesc xs)

/-- The engine `search_cached_transcripts(search_term, channel_name)` on a given corpus. -/
def search_cached_transcripts (term : String) (chan : Option String)
    (corpus : Corpus) : List VideoResult :=
  pySortDesc (searchResults term chan corpus)

/-! ## `format_timestamp` (src/app.py:167-176) -/

/-- Input of `format_timestamp`: either a value `float()` converts (embedded
exactly as a rational) or one on which `float()` raises. -/
inductive TsInput where
  | num (q : ℚ)
  | nonNumeric
deriving DecidableEq

/-- Python `%` on floats with positive modulus: `a - m * (a // m)`. -/
def pymod (a m : ℚ) : ℚ := a - m * ((⌊a / m⌋ : ℤ) : ℚ)

/-- Python `f"{n:02d}"`: zero-pad to width two (a negative sign counts). -/
def pad2 (n : Int) : String :=
  if 0 ≤ n ∧ n < 10 then "0" ++ toString n else toString n

/-- Python `format_timestamp(seconds)`; the `except` branch returns `"00:00:00"`.
`int()` coincides with `⌊·⌋` at every use: `seconds // 3600` is already a
floor, and both `%` results are non-negative. -/
def format_timestamp : TsInput → String
  | TsInput.nonNumeric => "00:00:00"
  | TsInput.num q =>
    pad2 ⌊q / 3600⌋ ++ ":" ++ pad2 ⌊pymod q 3600 / 60⌋ ++ ":" ++ pad2 ⌊pymod q 60⌋

/-! ## Concrete corpora used to evaluate the embedding -/

/-- A segment of the single-record scenario corpus (channel "Test",
publish date "2024-01-01"). -/
def entC1 (txt : String) (s : ℚ) : Entry :=
  { text := some txt, title := some "T", channel_name := some "Test",
    start := some s, published_at := some "2024-01-01" }

/-- The scenario corpus: one record `"abc"` with five segments. -/
def corpusC1 : Corpus :=
  [("abc", Except.ok
    [entC1 "hello world today" 0, entC1 "the quick brown fox" 10,
     entC1 "nothing relevant here" 20, entC1 "fox jumps high" 30,
     entC1 "the end" 40])]

/-- The single hit the scenario corpus produces for `"quick fox"`. -/
def hitC1 : MatchHit :=
  { video_id := "abc", title := "T", channel_name := "Test", timestamp := 10,
    text := "the quick brown fox", published_at := "2024-01-01" }

/-- The single video result the scenario corpus produces for `"quick fox"`. -/
def resC1 : VideoResult :=
  { video_id := "abc", title := "T", channel_name := "Test",
    published_at := "2024-01-01", video_matches := [hitC1] }

/-- A three-segment record whose first segment matches `"fox"`, with the given
publish date on every segment. -/
def recSort (pub : String) : Except Unit (List Entry) :=
  Except.ok
    [{ text := some "the fox", title := some "T", channel_name := some "Test",
       start := some 0, published_at := some pub },
     { text := some "x y", title := some "T", channel_name := some "Test",
       start := some 1, published_at := some pub },
     { text := some "z w", title := some "T", channel_name := some "Test",
       start := some 2, published_at := some pub }]

/-- Three matched records whose publish dates are `"2023-05-01"`, the literal
string `"unknown"`, and `"2024-01-01"`, in encounter order. -/
def corpusSortBad : Corpus :=
  [("v1", recSort "2023-05-01"), ("v2", recSort "unknown"),
   ("v3", recSort "2024-01-01")]

/-- Three matched records whose publish dates are `"2023-05-01"`, the code's
actual sentinel `"Unknown date"`, and `"2024-01-01"`, in encounter order. -/
def corpusSortFix : Corpus :=
  [("v1", recSort "2023-05-01"), ("v2", recSort "Unknown date"),
   ("v3", recSort "2024-01-01")]

/-- A corpus holding a two-segment (ineligible) record and an eligible
three-segment record. -/
def corpusC6 : Corpus :=
  [("tiny", Except.ok
     [{ text := some "fox", title := some "T", channel_name := some "Test",
        start := some 0, published_at := some "2024-01-01" },
      { text := some "fox", title := some "T", channel_name := some "Test",
        start := some 1, published_at := some "2024-01-01" }]),
   ("v6", recSort "2024-01-01")]

/-- The video result `corpusC6` produces for `"fox"`. -/
def resC6 : VideoResult :=
  { video_id := "v6", title := "T", channel_name := "Test",
    published_at := "2024-01-01",
    video_matches :=
      [{ video_id := "v6", title := "T", channel_name := "Test", timestamp := 0,
         text := "the fox", published_at := "2024-01-01" }] }

/-! ## Shared lemmas -/

/-- Tokens produced by `pySplitAux` are never the empty string. -/
lemma pySplitAux_token_ne :
    ∀ (cs acc : List Char), ∀ t ∈ pySplitAux cs acc, t ≠ "" := by
  intro cs
  induction cs with
  | nil =>
    intro acc t ht
    simp only [pySplitAux] at ht
    split at ht
    · simp at ht
    · rename_i hacc
      simp only [List.mem_singleton] at ht
      subst ht
      intro h
      have : acc.reverse = [] := congrArg String.data h
      simp only [List.reverse_eq_nil_iff] at this
      subst this
      simp at hacc
  | cons c cs ih =>
    intro acc t ht
    simp only [pySplitAux] at ht
    split at ht
    · split at ht
      · exact ih [] t ht
      · rename_i hacc
        rcases List.mem_cons.mp ht with h | h
        · subst h
          intro h
          have : acc.reverse = [] := congrArg String.data h
          simp only [List.reverse_eq_nil_iff] at this
          subst this
          simp at hacc
        · exact ih [] t h
    · exact ih (c :: acc) t ht

/-- Tokens produced by `pySplit` are never the empty string. -/
lemma pySplit_token_ne (s : String) : ∀ t ∈ pySplit s, t ≠ "" :=
  pySplitAux_token_ne s.data []

/-- The matcher on an empty phrase always answers `false`. -/
lemma search_phrase_empty (t : String) (g : Nat) :
    search_phrase_in_text "" t g = Except.ok false := by
  simp [search_phrase_in_text]

/-- A non-empty string has a non-empty character list. -/
lemma data_ne_nil {s : String} (h : s ≠ "") : s.data ≠ [] := by
  intro hd
  apply h
  cases s
  simp_all

/-- With an empty search term no segment ever matches. -/
lemma collectMatches_empty_term (vid : String) :
    ∀ data : List Entry, collectMatches "" vid data = Except.ok [] := by
  intro data
  induction data with
  | nil => rfl
  | cons e es ih => simp [collectMatches, search_phrase_empty, ih]

/-- With an empty search term no record produces a result. -/
lemma processRecord_empty_term (chan : Option String) (vid : String)
    (rec : Except Unit (List Entry)) :
    processRecord "" chan vid rec = Except.error ()
      ∨ processRecord "" chan vid rec = Except.ok none := by
  cases rec with
  | error e => exact Or.inl rfl
  | ok data =>
    right
    simp only [processRecord]
    split
    · rfl
    · split
      · rfl
      · simp [collectMatches_empty_term]

/-- Every position returned by `positionsOf` is at least the start index. -/
lemma positionsOf_le (w : String) :
    ∀ (ts : List String) (i : Nat), ∀ x ∈ positionsOf w ts i, i ≤ x := by
  intro ts
  induction ts with
  | nil => intro i x hx; simp [positionsOf] at hx
  | cons t ts ih =>
    intro i x hx
    rw [positionsOf] at hx
    split at hx
    · rcases List.mem_cons.mp hx with h | h
      · omega
      · have := ih (i + 1) x h; omega
    · have := ih (i + 1) x hx; omega

/-- The list `positionsOf` returns consists of strictly increasing positions. -/
lemma positionsOf_sorted (w : String) :
    ∀ (ts : List String) (i : Nat), (positionsOf w ts i).Pairwise (· < ·) := by
  intro ts
  induction ts with
  | nil => intro i; simp [positionsOf]
  | cons t ts ih =>
    intro i
    rw [positionsOf]
    split
    · exact List.pairwise_cons.mpr
        ⟨fun x hx => by have := positionsOf_le w ts (i + 1) x hx; omega, ih (i + 1)⟩
    · exact ih (i + 1)

/-- If no listed position qualifies, `findNext` finds nothing. -/
lemma findNext_none (g last : Nat) :
    ∀ ps : List Nat, (∀ p ∈ ps, ¬(last < p ∧ p - last ≤ g + 1)) →
      findNext g last ps = none := by
  intro ps
  induction ps with
  | nil => intro _; rfl
  | cons q qs ih =>
    intro h
    rw [findNext, if_neg (h q (List.mem_cons_self q qs))]
    exact ih fun p hp => h p (List.mem_cons_of_mem q hp)

/-- On a strictly increasing position list, enlarging the gap bound cannot
change which position `findNext` settles on when it succeeds. -/
lemma findNext_mono {g1 g2 last : Nat} (hg : g1 ≤ g2) :
    ∀ ps : List Nat, ps.Pairwise (· < ·) →
      ∀ p, findNext g1 last ps = some p → findNext g2 last ps = some p := by
  intro ps
  induction ps with
  | nil => intro _ p h; exact absurd h (by simp [findNext])
  | cons q qs ih =>
    intro hsort p h
    rw [findNext] at h
    by_cases h1 : last < q ∧ q - last ≤ g1 + 1
    · rw [if_pos h1] at h
      rw [findNext, if_pos ⟨h1.1, by omega⟩]
      exact h
    · rw [if_neg h1] at h
      by_cases hl : last < q
      · exfalso
        have hnone : findNext g1 last qs = none := by
          apply findNext_none
          intro p hp hc
          have hq : q < p := (List.pairwise_cons.mp hsort).1 p hp
          omega
        rw [hnone] at h
        exact Option.noConfusion h
      · rw [findNext, if_neg fun hc => hl hc.1]
        exact ih (List.pairwise_cons.mp hsort).2 p h

/-- The match chain is monotone in the gap bound. -/
lemma chainFrom_mono (tws : List String) {g1 g2 : Nat} (hg : g1 ≤ g2) :
    ∀ (ws : List String) (last : Nat),
      chainFrom tws g1 ws last = true → chainFrom tws g2 ws last = true := by
  intro ws
  induction ws with
  | nil => intro last _; rfl
  | cons w ws ih =>
    intro last h
    rw [chainFrom] at h ⊢
    cases hfn : findNext g1 last (positionsOf w tws 0) with
    | none => rw [hfn] at h; exact absurd h (by simp)
    | some p =>
      rw [hfn] at h
      rw [findNext_mono hg _ (positionsOf_sorted w tws 0) p hfn]
      exact ih p h

/-- The order `listLt` is irreflexive. -/
lemma listLt_irrefl : ∀ a : List Char, listLt a a = false := by
  intro a
  induction a with
  | nil => rfl
  | cons x xs ih => rw [listLt, if_neg (by omega), if_neg (by omega)]; exact ih

/-- The order `listLt` is asymmetric. -/
lemma listLt_asymm : ∀ a b : List Char, listLt a b = true → listLt b a = false := by
  intro a
  induction a with
  | nil =>
    intro b h
    cases b with
    | nil => exact absurd h (by simp [listLt])
    | cons y ys => rfl
  | cons x xs ih =>
    intro b h
    cases b with
    | nil => exact absurd h (by simp [listLt])
    | cons y ys =>
      rw [listLt] at h ⊢
      by_cases h1 : x.toNat < y.toNat
      · rw [if_neg (by omega), if_pos h1]
      · by_cases h2 : y.toNat < x.toNat
        · rw [if_neg h1, if_pos h2] at h
          exact absurd h (by simp)
        · rw [if_neg h1, if_neg h2] at h
          rw [if_neg h2, if_neg h1]
          exact ih ys h

/-- If neither `a < b` nor `b < c` holds, then `a < c` does not hold. -/
lemma listLt_neg_trans :
    ∀ a b c : List Char, listLt a b = false → listLt b c = false →
      listLt a c = false := by
  intro a
  induction a with
  | nil =>
    intro b c hab hbc
    cases b with
    | nil => exact hbc
    | cons y ys => exact absurd hab (by simp [listLt])
  | cons x xs ih =>
    intro b c hab hbc
    cases c with
    | nil => rfl
    | cons z zs =>
      cases b with
      | nil => exact absurd hbc (by simp [listLt])
      | cons y ys =>
        rw [listLt] at hab hbc ⊢
        by_cases hxy : x.toNat < y.toNat
        · rw [if_pos hxy] at hab
          exact absurd hab (by simp)
        by_cases hyz : y.toNat < z.toNat
        · rw [if_pos hyz] at hbc
          exact absurd hbc (by simp)
        rw [if_neg (show ¬x.toNat < z.toNat by omega)]
        by_cases hzx : z.toNat < x.toNat
        · rw [if_pos hzx]
        · rw [if_neg hzx]
          rw [if_neg hxy, if_neg (by omega)] at hab
          rw [if_neg hyz, if_neg (by omega)] at hbc
          exact ih ys zs hab hbc

/-- The order `pyStrLt` is irreflexive. -/
lemma pyStrLt_irrefl (s : String) : pyStrLt s s = false := listLt_irrefl s.data

/-- The order `pyStrLt` is asymmetric. -/
lemma pyStrLt_asymm {s t : String} (h : pyStrLt s t = true) : pyStrLt t s = false :=
  listLt_asymm s.data t.data h

/-- Failure of `pyStrLt` (that is, `≥`) is transitive. -/
lemma pyStrLt_neg_trans {a b c : String} (hab : pyStrLt a b = false)
    (hbc : pyStrLt b c = false) : pyStrLt a c = false :=
  listLt_neg_trans a.data b.data c.data hab hbc

/-- Membership in a `pyInsert` result. -/
lemma mem_pyInsert (z x : VideoResult) :
    ∀ l, z ∈ pyInsert x l ↔ z = x ∨ z ∈ l := by
  intro l
  induction l with
  | nil => simp [pyInsert]
  | cons y ys ih =>
    rw [pyInsert]
    split
    · simp only [List.mem_cons, ih]
      tauto
    · simp only [List.mem_cons]

/-- Sorting permutes membership only. -/
lemma mem_pySortDesc (z : VideoResult) :
    ∀ l, z ∈ pySortDesc l ↔ z ∈ l := by
  intro l
  induction l with
  | nil => simp [pySortDesc]
  | cons x xs ih =>
    rw [pySortDesc, mem_pyInsert]
    simp [ih]

/-- Inserting preserves the descending-key invariant. -/
lemma pairwise_pyInsert (x : VideoResult) :
    ∀ l, l.Pairwise (fun a b => pyStrLt (sortKey a) (sortKey b) = false) →
      (pyInsert x l).Pairwise
        (fun a b => pyStrLt (sortKey a) (sortKey b) = false) := by
  intro l
  induction l with
  | nil => intro _; simp [pyInsert]
  | cons y ys ih =>
    intro h
    obtain ⟨hy, hys⟩ := List.pairwise_cons.mp h
    rw [pyInsert]
    split
    · rename_i hlt
      refine List.pairwise_cons.mpr ⟨?_, ih hys⟩
      intro z hz
      rcases (mem_pyInsert z x ys).mp hz with rfl | hz'
      · exact pyStrLt_asymm hlt
      · exact hy z hz'
    · rename_i hnlt
      rw [Bool.not_eq_true] at hnlt
      refine List.pairwise_cons.mpr ⟨?_, h⟩
      intro z hz
      rcases List.mem_cons.mp hz with rfl | hz'
      · exact hnlt
      · exact pyStrLt_neg_trans hnlt (hy z hz')

/-- The sorted result is descending in the sort key. -/
lemma pairwise_pySortDesc :
    ∀ l, (pySortDesc l).Pairwise
      (fun a b => pyStrLt (sortKey a) (sortKey b) = false) := by
  intro l
  induction l with
  | nil => simp [pySortDesc]
  | cons x xs ih => exact pairwise_pyInsert x _ ih

/-- Inserting does not disturb the relative order of any class of elements
sharing one sort key. -/
lemma filter_pyInsert (P : VideoResult → Bool)
    (hP : ∀ a b, P a = true → P b = true → sortKey a = sortKey b)
    (x : VideoResult) :
    ∀ l, (pyInsert x l).filter P = ((x :: l).filter P) := by
  intro l
  induction l with
  | nil => rfl
  | cons y ys ih =>
    rw [pyInsert]
    split
    · rename_i hlt
      by_cases hPy : P y = true
      · by_cases hPx : P x = true
        · exfalso
          rw [hP x y hPx hPy, pyStrLt_irrefl] at hlt
          exact Bool.noConfusion hlt
        · simp [List.filter_cons, hPy, hPx, ih]
      · simp [List.filter_cons, hPy, ih]
    · rfl

/-- Sorting does not disturb the relative order of any class of elements
sharing one sort key (Python's sort is stable, also under `reverse=True`). -/
lemma filter_pySortDesc (P : VideoResult → Bool)
    (hP : ∀ a b, P a = true → P b = true → sortKey a = sortKey b) :
    ∀ l, (pySortDesc l).filter P = l.filter P := by
  intro l
  induction l with
  | nil => rfl
  | cons x xs ih =>
    rw [pySortDesc, filter_pyInsert P hP x, List.filter_cons, List.filter_cons, ih]

/-- What a successful `processRecord` guarantees about its inputs. -/
lemma processRecord_ok_some {term : String} {chan : Option String} {vid : String}
    {rec : Except Unit (List Entry)} {r : VideoResult}
    (h : processRecord term chan vid rec = Except.ok (some r)) :
    r.video_id = vid ∧ ∃ data, rec = Except.ok data ∧ 2 < data.length := by
  cases rec with
  | error e => exact absurd h (by simp [processRecord])
  | ok data =>
    rw [processRecord] at h
    by_cases hlen : data.length ≤ 2
    · rw [if_pos hlen] at h
      exact absurd h (by simp)
    rw [if_neg hlen] at h
    by_cases hskip : chanSkip chan data = true
    · rw [if_pos hskip] at h
      exact absurd h (by simp)
    rw [if_neg hskip] at h
    cases hcm : collectMatches term vid data with
    | error e =>
      rw [hcm] at h
      exact absurd h (by simp)
    | ok ms =>
      rw [hcm] at h
      cases ms with
      | nil => exact absurd h (by simp)
      | cons m rest =>
        simp only [Except.ok.injEq, Option.some.injEq] at h
        subst h
        exact ⟨rfl, data, rfl, by omega⟩

/-! ## Claims -/

/-- C1: on the corpus with one record of five segments
`["hello world today", "the quick brown fox", "nothing relevant here",
"fox jumps high", "the end"]` (channel "Test", published "2024-01-01"),
`search("quick fox", corpus, None)` with `maxWordGap = 5` returns exactly one
VideoResult holding exactly one MatchHit, whose text is
"the quick brown fox"; no other segment produces a hit. -/
theorem C1_scenario_quick_fox :
    search_cached_transcripts "quick fox" none corpusC1 = [resC1]
      ∧ resC1.video_matches.map MatchHit.text = ["the quick brown fox"] := by
  constructor
  · decide
  · decide

/-- C2 counterexample: `" fox "` splits into exactly one token, the matcher
answers `true` on text `"fox"`, yet `" fox ".lower()` is not a substring of
`"fox".lower()` — so single-word matching is not literal-substring
containment of the whole phrase. -/
theorem C2_counterexample :
    (pySplit (pyLower " fox ")).length = 1
      ∧ search_phrase_in_text " fox " "fox" 5 = Except.ok true
      ∧ strContains (pyLower " fox ") (pyLower "fox") = false := by
  refine ⟨by decide, by decide, by decide⟩

/-- C2 amended: for a phrase whose lowercased whitespace-split is exactly one
token, the matcher returns whether that token (rather than the raw lowered
phrase) is a substring of the lowered text, for every gap bound. -/
theorem C2_single_word_substring (w t : String) (g : Nat) (tok : String)
    (h : pySplit (pyLower w) = [tok]) :
    search_phrase_in_text w t g = Except.ok (strContains tok (pyLower t)) := by
  have htok : tok ≠ "" := pySplit_token_ne (pyLower w) tok (by rw [h]; simp)
  have hw : w ≠ "" := by
    intro hw
    rw [hw] at h
    simp [pyLower, pySplit, pySplitAux] at h
  by_cases ht : t = ""
  · subst ht
    have hL : search_phrase_in_text w "" g = Except.ok false := by
      simp [search_phrase_in_text]
    have hR : strContains tok (pyLower "") = false := by
      have h0 : strContains tok (pyLower "") = tok.data.isEmpty := rfl
      rw [h0]
      simpa using data_ne_nil htok
    rw [hL, hR]
  · simp only [search_phrase_in_text, h]
    rw [if_neg (by simp [hw, ht])]
    simp

/-- C2 witness: for the one-token phrase `"fox"` and text `"foxes"` the
matcher agrees with token-substring containment (which holds here). -/
theorem C2_single_word_substring_witness :
    search_phrase_in_text "fox" "foxes" 0
        = Except.ok (strContains "fox" (pyLower "foxes"))
      ∧ strContains "fox" (pyLower "foxes") = true :=
  ⟨C2_single_word_substring "fox" "foxes" 0 "fox" (by decide), by decide⟩

/-- C3: gap-bound monotonicity — if the matcher answers `true` under
`maxWordGap = g1` then it answers `true` under every `g2 ≥ g1`; enlarging the
bound never turns a match into a non-match. -/
theorem C3_gap_monotone (p t : String) (g1 g2 : Nat) (hg : g1 ≤ g2)
    (h : search_phrase_in_text p t g1 = Except.ok true) :
    search_phrase_in_text p t g2 = Except.ok true := by
  rw [search_phrase_in_text] at h ⊢
  by_cases h0 : p = "" ∨ t = ""
  · rw [if_pos h0] at h
    exact absurd h (by simp)
  rw [if_neg h0] at h ⊢
  by_cases h1 : (pySplit (pyLower p)).length = 1
  · rw [if_pos h1] at h ⊢
    exact h
  rw [if_neg h1] at h ⊢
  by_cases h2 : ((pySplit (pyLower p)).any
      fun w => (positionsOf w (pySplit (pyLower t)) 0).isEmpty) = true
  · rw [if_pos h2] at h
    exact absurd h (by simp)
  rw [if_neg h2] at h ⊢
  cases hsp : pySplit (pyLower p) with
  | nil =>
    rw [hsp] at h
    exact absurd h (by simp)
  | cons w ws =>
    rw [hsp] at h
    simp only [Except.ok.injEq] at h ⊢
    simp only [List.any_eq_true] at h ⊢
    obtain ⟨s, hs, hchain⟩ := h
    exact ⟨s, hs, chainFrom_mono _ hg ws s hchain⟩

/-- C3 witness: `"a b"` matches in `"a b"` with gap bound 0, hence also with
gap bound 9. -/
theorem C3_gap_monotone_witness :
    search_phrase_in_text "a b" "a b" 9 = Except.ok true :=
  C3_gap_monotone "a b" "a b" 0 9 (by decide) (by decide)

/-- C4 counterexample: on the whitespace-only phrase `" "` with non-empty
text the matcher raises (`phrase_words[0]` is an `IndexError`), so it is not
total on all string pairs. -/
theorem C4_counterexample :
    search_phrase_in_text " " "a" 5 = Except.error () := by decide

/-- C4 amended: the matcher returns a boolean — never raises — for every
input except the uncovered corner: a phrase that is non-empty but
whitespace-only (empty split) combined with non-empty text.  Inputs it
cannot match yield `Except.ok false`. -/
theorem C4_totality (phrase text : String) (g : Nat)
    (h : phrase = "" ∨ text = "" ∨ pySplit (pyLower phrase) ≠ []) :
    ∃ b, search_phrase_in_text phrase text g = Except.ok b := by
  by_cases hp : phrase = ""
  · exact ⟨false, by simp [search_phrase_in_text, hp]⟩
  by_cases ht : text = ""
  · exact ⟨false, by simp [search_phrase_in_text, ht]⟩
  have hne : pySplit (pyLower phrase) ≠ [] := by tauto
  rw [search_phrase_in_text, if_neg (by simp [hp, ht])]
  split
  · exact ⟨_, rfl⟩
  split
  · exact ⟨_, rfl⟩
  split
  · rename_i heq
    exact absurd heq hne
  · exact ⟨_, rfl⟩

/-- C4 witness: on phrase `"quick fox"` and text `"x"` (no match anywhere)
the matcher terminates with a boolean. -/
theorem C4_totality_witness :
    ∃ b, search_phrase_in_text "quick fox" "x" 5 = Except.ok b :=
  C4_totality "quick fox" "x" 5 (by decide)

/-- C5 counterexample: the code's unknown-date sentinel is `'Unknown date'`,
not `"unknown"`.  A record whose `publishedAt` is the literal string
`"unknown"` keeps that string as its sort key, and `"unknown"` is
lexicographically greater than any `"2024-…"` date, so it sorts FIRST under
descending order, not last: the claimed output order is wrong. -/
theorem C5_counterexample :
    (search_cached_transcripts "fox" none corpusSortBad).map
        VideoResult.published_at = ["unknown", "2024-01-01", "2023-05-01"]
      ∧ (search_cached_transcripts "fox" none corpusSortBad).map
          VideoResult.published_at ≠ ["2024-01-01", "2023-05-01", "unknown"] :=
  ⟨by decide, by decide⟩

/-- C5 amended: search output is sorted descending by the lexical sort key
(`publishedAt`, with the sentinel `"Unknown date"` — not `"unknown"` —
replaced by `"0000-00-00"`); ties in `publishedAt` keep corpus-encounter
order (the sort is stable: every equal-`publishedAt` class appears in the
same order as in the unsorted per-record results); when every non-sentinel
date is lexicographically above `"0000-00-00"` (as every ISO-like date is),
sentinel entries come last; and the three-record instance with dates
`"2023-05-01"`, `"Unknown date"`, `"2024-01-01"` comes out in the order
`["2024-01-01", "2023-05-01", "Unknown date"]`. -/
theorem C5_sort_descending_stable (term : String) (chan : Option String)
    (corpus : Corpus) :
    ((search_cached_transcripts term chan corpus).Pairwise
        fun a b => pyStrLt (sortKey a) (sortKey b) = false)
      ∧ (∀ p : String,
          (search_cached_transcripts term chan corpus).filter
              (fun r => r.published_at == p)
            = (searchResults term chan corpus).filter
                fun r => r.published_at == p)
      ∧ ((∀ r ∈ search_cached_transcripts term chan corpus,
            r.published_at ≠ "Unknown date" →
              pyStrLt "0000-00-00" r.published_at = true) →
          (search_cached_transcripts term chan corpus).Pairwise
            fun a b => a.published_at = "Unknown date" →
              b.published_at = "Unknown date")
      ∧ (search_cached_transcripts "fox" none corpusSortFix).map
          VideoResult.published_at
            = ["2024-01-01", "2023-05-01", "Unknown date"] := by
  refine ⟨pairwise_pySortDesc _, fun p => ?_, fun hiso => ?_, by decide⟩
  · exact filter_pySortDesc _
      (fun a b ha hb => by
        rw [sortKey, sortKey, beq_iff_eq.mp ha, beq_iff_eq.mp hb]) _
  · refine List.Pairwise.imp_of_mem ?_ (pairwise_pySortDesc _)
    intro a b hma hmb hab hsa
    by_contra hsb
    rw [sortKey, sortKey, if_pos hsa, if_neg hsb] at hab
    rw [hiso b hmb hsb] at hab
    exact Bool.noConfusion hab

/-- C5 witness: on the literal-`"unknown"` corpus all dates are above
`"0000-00-00"`, so sentinel-last holds (vacuously — no sentinel occurs). -/
theorem C5_sort_descending_stable_witness :
    (search_cached_transcripts "fox" none corpusSortBad).Pairwise
      (fun a b => a.published_at = "Unknown date" →
        b.published_at = "Unknown date") :=
  (C5_sort_descending_stable "fox" none corpusSortBad).2.2.1 (by decide)

/-- C6: every VideoResult returned by search stems from a corpus record that
parsed as a list of more than two segments; records with at most two
segments never contribute. -/
theorem C6_min_segments (term : String) (chan : Option String) (corpus : Corpus)
    (r : VideoResult) (hr : r ∈ search_cached_transcripts term chan corpus) :
    ∃ pr ∈ corpus, pr.1 = r.video_id ∧
      ∃ data, pr.2 = Except.ok data ∧ 2 < data.length := by
  rw [search_cached_transcripts, mem_pySortDesc, searchResults] at hr
  obtain ⟨pr, hmem, hf⟩ := List.mem_filterMap.mp hr
  cases hpr : processRecord term chan pr.1 pr.2 with
  | error e =>
    rw [hpr] at hf
    exact absurd hf (by simp)
  | ok o =>
    rw [hpr] at hf
    have hf' : o = some r := hf
    rw [hf'] at hpr
    obtain ⟨hid, data, hdata, hlen⟩ := processRecord_ok_some hpr
    exact ⟨pr, hmem, hid.symm, data, hdata, hlen⟩

/-- C6 witness: on a corpus with a two-segment record and a three-segment
record, the returned result for `"fox"` stems from the three-segment one. -/
theorem C6_min_segments_witness :
    ∃ pr ∈ corpusC6, pr.1 = resC6.video_id ∧
      ∃ data, pr.2 = Except.ok data ∧ 2 < data.length :=
  C6_min_segments "fox" none corpusC6 resC6 (by decide)

/-- C9: a record whose processing raises (malformed parse, or an exception
escaping the matcher on one of its segments) is skipped whole — it
contributes no VideoResult — and the remaining records are processed as if
it were absent; by construction search itself returns a plain list, never
propagating the per-record exception. -/
theorem C9_skip_failing_record (term : String) (chan : Option String)
    (pre post : Corpus) (vid : String) (rec : Except Unit (List Entry))
    (h : processRecord term chan vid rec = Except.error ()) :
    search_cached_transcripts term chan (pre ++ (vid, rec) :: post)
      = search_cached_transcripts term chan (pre ++ post) := by
  rw [search_cached_transcripts, search_cached_transcripts]
  congr 1
  simp only [searchResults, List.filterMap_append, List.filterMap_cons, h]

/-- C9 witness: a corpus whose middle record fails to parse yields the same
result as the corpus without it. -/
theorem C9_skip_failing_record_witness :
    search_cached_transcripts "fox" none
        ([("v1", recSort "2024-01-01")] ++ ("bad", Except.error ()) :: [])
      = search_cached_transcripts "fox" none
          ([("v1", recSort "2024-01-01")] ++ []) :=
  C9_skip_failing_record "fox" none [("v1", recSort "2024-01-01")] []
    "bad" (Except.error ()) (by decide)

/-- C7: with the empty string as query phrase, search returns the empty
result set on every corpus and no error escapes: the matcher fails closed on
the empty phrase. -/
theorem C7_empty_query (chan : Option String) (corpus : Corpus) :
    search_cached_transcripts "" chan corpus = [] := by
  have hres : searchResults "" chan corpus = [] := by
    induction corpus with
    | nil => rfl
    | cons pr rest ih =>
      simp only [searchResults, List.filterMap_cons] at ih ⊢
      rcases processRecord_empty_term chan pr.1 pr.2 with h | h <;> rw [h] <;> exact ih
  rw [search_cached_transcripts, hres]
  rfl

/-- C8: `format_timestamp` follows `hours = floor(seconds/3600)`,
`minutes = floor((seconds mod 3600)/60)`, `secs = floor(seconds mod 60)`
rendered with two-digit zero padding; non-numeric input renders `"00:00:00"`;
`125.7` renders `"00:02:05"`. -/
theorem C8_format_rule :
    (∀ q : ℚ, format_timestamp (TsInput.num q)
        = pad2 ⌊q / 3600⌋ ++ ":"
            ++ pad2 ⌊(q - 3600 * ((⌊q / 3600⌋ : ℤ) : ℚ)) / 60⌋ ++ ":"
            ++ pad2 ⌊q - 60 * ((⌊q / 60⌋ : ℤ) : ℚ)⌋)
      ∧ format_timestamp (TsInput.num (1257 / 10)) = "00:02:05"
      ∧ format_timestamp TsInput.nonNumeric = "00:00:00" := by
  refine ⟨fun q => rfl, ?_, rfl⟩
  have h1 : (⌊(1257 / 10 : ℚ) / 3600⌋ : ℤ) = 0 := by norm_num
  have h2 : (⌊(1257 / 10 : ℚ) / 60⌋ : ℤ) = 2 := by norm_num
  simp only [format_timestamp, pymod, h1]
  norm_num
  decide

/-- C10: negative seconds are not clamped: for `-5` the hour field is the
negative floor `-1` while minutes and seconds use the non-negative modulo,
giving `"-1:59:55"` (not `"00:00:00"`, and the hour field is not two
zero-padded digits). -/
theorem C10_negative_seconds :
    format_timestamp (TsInput.num (-5)) = "-1:59:55"
      ∧ format_timestamp (TsInput.num (-5)) ≠ "00:00:00" := by
  have h : format_timestamp (TsInput.num (-5)) = "-1:59:55" := by
    have h1 : (⌊(-5 : ℚ) / 3600⌋ : ℤ) = -1 := by norm_num
    simp only [format_timestamp, pymod, h1]
    norm_num
    decide
  exact ⟨h, by rw [h]; decide⟩

end YTScanner
